import Mathlib

/-!
Verification of the focus-and-keyboard interaction engine of the
a11ypros component library.

The development shallowly embeds the core utilities and hooks:
  - packages/design-system/src/utils/focus.ts
      (getFocusableElements, getFirstFocusable, getLastFocusable,
       isFocusable, saveFocus, restoreFocus)
  - packages/design-system/src/utils/keyboard.ts
      (isActivationKey, isArrowKey, isNavigationKey)
  - packages/design-system/src/hooks/useFocusTrap.ts
  - packages/design-system/src/hooks/useFocusReturn.ts
  - packages/design-system/src/hooks/useAriaLive.ts
  - the keyboard handlers of Tabs.tsx (both the variant with the
    activationMode prop and the plain packaged variant) and DataTable.tsx

DOM elements are modelled as records of the attributes the source code
inspects; React hooks are modelled as explicit state machines whose render
step follows the dependency-array semantics of useEffect (the effect body
runs exactly when a dependency changed, after running the previous cleanup).
-/

namespace A11y

/-! ## Element model for the focus registry (utils/focus.ts)

`getFocusableElements` filters the descendants of a container with the CSS
selector list

    a[href]:not([tabindex="-1"]),
    button:not([disabled]):not([tabindex="-1"]),
    textarea:not([disabled]):not([tabindex="-1"]),
    input:not([disabled]):not([tabindex="-1"]),
    select:not([disabled]):not([tabindex="-1"]),
    [tabindex]:not([tabindex="-1"])

so an element is modelled by exactly the attributes those selectors and the
separate `isFocusable` helper consult. -/

inductive Tag where
  | anchor
  | button
  | inputEl
  | textareaEl
  | selectEl
  | divEl
deriving DecidableEq, Repr

structure FElem where
  idAttr : String
  tag : Tag
  hasHref : Bool
  disabledAttr : Bool
  tabindexAttr : Option Int
  hiddenAttr : Bool
  displayNone : Bool
  visibilityHidden : Bool
deriving DecidableEq, Repr

def isFormControlTag (t : Tag) : Bool :=
  t == Tag.button || t == Tag.textareaEl || t == Tag.inputEl || t == Tag.selectEl

/-- The union of the six CSS selectors used by `getFocusableElements`.
`[tabindex="-1"]` is an exact attribute-string match, hence `some (-1)`. -/
def matchesFocusableSelector (e : FElem) : Bool :=
  (e.tag == Tag.anchor && e.hasHref && e.tabindexAttr != some (-1)) ||
  (isFormControlTag e.tag && !e.disabledAttr && e.tabindexAttr != some (-1)) ||
  (e.tabindexAttr.isSome && e.tabindexAttr != some (-1))

/-- `getFocusableElements`: `querySelectorAll` over the selector union,
returned in document order (the order of the container list). -/
def getFocusableElements (container : List FElem) : List FElem :=
  container.filter matchesFocusableSelector

/-- `getFirstFocusable`: first element of the query result, `null` if none. -/
def getFirstFocusable (container : List FElem) : Option FElem :=
  (getFocusableElements container).head?

/-- `getLastFocusable`: last element of the query result, `null` if none. -/
def getLastFocusable (container : List FElem) : Option FElem :=
  (getFocusableElements container).getLast?

/-- The default value of the `tabIndex` IDL property when no `tabindex`
attribute is present: 0 for interactive elements (anchors with an href and
form controls), -1 otherwise. -/
def defaultTabIndex (e : FElem) : Int :=
  if (e.tag == Tag.anchor && e.hasHref) || isFormControlTag e.tag then 0 else -1

/-- The `element.tabIndex` IDL value: the `tabindex` attribute if present,
otherwise the per-tag default. -/
def tabIndexValue (e : FElem) : Int :=
  e.tabindexAttr.getD (defaultTabIndex e)

/-- `isFocusable` from utils/focus.ts: rejects a negative `tabIndex`, the
`disabled` attribute, the `hidden` attribute, `display: none` and
`visibility: hidden`. -/
def isFocusable (e : FElem) : Bool :=
  !(tabIndexValue e < 0) && !e.disabledAttr && !e.hiddenAttr &&
    !e.displayNone && !e.visibilityHidden

/-! ### The abstract eligibility flags of the specification data model -/

/-- The `visible` flag of the spec data model: no `hidden` attribute, not
`display: none`, not `visibility: hidden`. -/
def visibleFlag (e : FElem) : Bool :=
  !e.hiddenAttr && !e.displayNone && !e.visibilityHidden

/-- The `disabled` flag of the spec data model: the `disabled` attribute. -/
def disabledFlag (e : FElem) : Bool :=
  e.disabledAttr

/-- The `tabReachable` flag of the spec data model: a non-negative effective
`tabIndex`. -/
def tabReachable (e : FElem) : Bool :=
  decide (0 ≤ tabIndexValue e)

/-- The eligibility invariant of the spec: visible, not disabled, and
sequentially reachable. -/
def eligible (e : FElem) : Bool :=
  visibleFlag e && !disabledFlag e && tabReachable e

/-! ## Keyboard predicates (utils/keyboard.ts) -/

def isActivationKey (key : String) : Bool :=
  key == "Enter" || key == " "

def isArrowKey (key : String) : Bool :=
  ["ArrowUp", "ArrowDown", "ArrowLeft", "ArrowRight"].contains key

def isNavigationKey (key : String) : Bool :=
  ["Home", "End", "PageUp", "PageDown"].contains key

def isEscapeKey (key : String) : Bool :=
  key == "Escape"

/-! ## Concrete elements used in the concrete-input theorems -/

def okButton : FElem :=
  ⟨"ok", Tag.button, false, false, none, false, false, false⟩

def hiddenButton : FElem :=
  ⟨"hidden-btn", Tag.button, false, false, none, true, false, false⟩

def disabledTabbableButton : FElem :=
  ⟨"disabled-tabbable-btn", Tag.button, false, true, some 0, false, false, false⟩

def triggerButton : FElem :=
  ⟨"trigger", Tag.button, false, false, none, false, false, false⟩

def modalButton : FElem :=
  ⟨"modal-ok", Tag.button, false, false, none, false, false, false⟩

def modalContainer : FElem :=
  ⟨"modal", Tag.divEl, false, false, some (-1), false, false, false⟩

/-! ## C1 theorems -/

/-- C1, counterexample. The claim states that `getFocusableElements` excludes
every element whose `visible` flag is false and every element whose `disabled`
flag is true. Both exclusions fail on the code: the selector list never
consults visibility, so a hidden button is returned, and a disabled button
carrying `tabindex="0"` matches the `[tabindex]:not([tabindex="-1"])`
selector, so it is returned as well. -/
theorem c1_focusable_claim_false :
    getFocusableElements [hiddenButton] = [hiddenButton] ∧
    visibleFlag hiddenButton = false ∧
    getFocusableElements [disabledTabbableButton] = [disabledTabbableButton] ∧
    disabledFlag disabledTabbableButton = true ∧
    visibleFlag disabledTabbableButton = true ∧
    tabReachable disabledTabbableButton = true := by
  refine ⟨rfl, rfl, rfl, rfl, rfl, rfl⟩

/-- C1, amended. For every container, `getFocusableElements`
(i) includes every element satisfying all three eligibility flags
(visible, not disabled, tabReachable), (ii) excludes every element whose
`tabindex` attribute is literally -1, (iii) excludes every disabled form
control that does not carry an overriding `tabindex` attribute, and
(iv) preserves document order (the result is a sublist of the container).
Visibility, however, is not consulted, and a disabled control with an
explicit non-(-1) `tabindex` attribute is included. -/
theorem c1_focusable_amended (container : List FElem) :
    (∀ e ∈ container, eligible e = true → e ∈ getFocusableElements container) ∧
    (∀ e ∈ getFocusableElements container, e.tabindexAttr ≠ some (-1)) ∧
    (∀ e ∈ container, isFormControlTag e.tag = true → e.disabledAttr = true →
      e.tabindexAttr = none → e ∉ getFocusableElements container) ∧
    (getFocusableElements container).Sublist container := by
  refine ⟨?_, ?_, ?_, List.filter_sublist container⟩
  · intro e he hel
    refine List.mem_filter.mpr ⟨he, ?_⟩
    have hdis : e.disabledAttr = false := by
      simp only [eligible, disabledFlag, Bool.and_eq_true, Bool.not_eq_true'] at hel
      exact hel.1.2
    have hreach : 0 ≤ tabIndexValue e := by
      simp only [eligible, tabReachable, Bool.and_eq_true, decide_eq_true_eq] at hel
      exact hel.2
    simp only [matchesFocusableSelector, Bool.or_eq_true, Bool.and_eq_true]
    rcases htia : e.tabindexAttr with _ | k
    · simp only [tabIndexValue, htia, Option.getD_none, defaultTabIndex] at hreach
      by_cases hdef : ((e.tag == Tag.anchor && e.hasHref) || isFormControlTag e.tag) = true
      · rcases Bool.or_eq_true _ _ |>.mp hdef with ha | hf
        · exact Or.inl (Or.inl ⟨Bool.and_eq_true _ _ |>.mp ha, by simp⟩)
        · exact Or.inl (Or.inr ⟨⟨hf, by simp [hdis]⟩, by simp⟩)
      · exfalso
        rw [if_neg hdef] at hreach
        omega
    · have hk : k ≠ -1 := by
        simp only [tabIndexValue, htia, Option.getD_some] at hreach
        omega
      refine Or.inr ⟨rfl, ?_⟩
      simp [hk]
  · intro e he
    have hm := (List.mem_filter.mp he).2
    simp only [matchesFocusableSelector, Bool.or_eq_true, Bool.and_eq_true] at hm
    rcases hm with (⟨_, hne⟩ | ⟨_, hne⟩) | ⟨_, hne⟩ <;>
      simpa using hne
  · intro e _ hform hdis htia hmem
    have hm := (List.mem_filter.mp hmem).2
    simp only [matchesFocusableSelector, Bool.or_eq_true, Bool.and_eq_true] at hm
    rcases hm with (⟨⟨ha, _⟩, _⟩ | ⟨⟨_, hnd⟩, _⟩) | ⟨hsome, _⟩
    · have : e.tag = Tag.anchor := by simpa using ha
      rw [this] at hform
      simp [isFormControlTag] at hform
    · simp [hdis] at hnd
    · simp [htia] at hsome

/-- C1 amended, witness: a plain visible button is eligible and is returned
by the query on its singleton container. -/
theorem c1_focusable_amended_witness :
    okButton ∈ getFocusableElements [okButton] :=
  (c1_focusable_amended [okButton]).1 okButton (by simp) rfl

/-! ## Roving navigation: the Tabs and DataTable keyboard handlers

A collection is modelled by its per-item `disabled` flags in document order;
the handlers compute the target index passed to `handleSelect` / `focus`
(`some j`), or `none` when the event produces no movement and no selection
change. -/

/-- The keys stepped forward in the disabled-skip loop of Tabs:
`Home`, `ArrowRight`, `ArrowDown`; every other key steps backward. -/
def skipForwardKey (key : String) : Bool :=
  key == "Home" || key == "ArrowRight" || key == "ArrowDown"

/-- One step of the skip loop: `(j + 1) % n` forward,
`(j - 1 + n) % n` backward. -/
def stepIndex : Bool → Nat → Nat → Nat
  | true, n, j => (j + 1) % n
  | false, n, j => (j + n - 1) % n

/-- The `while (items[newIndex]?.disabled && newIndex !== currentIndex)`
loop of the Tabs handlers. An out-of-range index reads as not disabled
(`items[newIndex]?.disabled` is undefined), stopping the loop. The loop is
embedded with explicit fuel; `skip_loop_exits` below shows that fuel equal
to the item count always reaches the loop exit condition, so the embedding
agrees with the unbounded source loop. -/
def skipDisabledLoop (disabled : List Bool) (currentIndex : Nat) (fwd : Bool) :
    Nat → Nat → Nat
  | 0, j => j
  | fuel + 1, j =>
    if disabled.getD j false && j != currentIndex then
      skipDisabledLoop disabled currentIndex fwd fuel
        (stepIndex fwd disabled.length j)
    else j

/-- The `switch (event.key)` of the Tabs handlers: initial target index
before disabled items are skipped. Keys that pass the gate but have no case
(PageUp/PageDown) and arrows of the wrong orientation leave the index
unchanged. -/
def tabsSwitchIndex (key : String) (horizontal : Bool) (i n : Nat) : Nat :=
  if key == "Home" then 0
  else if key == "End" then n - 1
  else if key == "ArrowRight" then (if horizontal then (i + 1) % n else i)
  else if key == "ArrowLeft" then (if horizontal then (i + n - 1) % n else i)
  else if key == "ArrowDown" then (if !horizontal then (i + 1) % n else i)
  else if key == "ArrowUp" then (if !horizontal then (i + n - 1) % n else i)
  else i

/-- `handleKeyDown` of the Tabs variant with an `activationMode` prop:
a manual-mode Enter/Space selects the current non-disabled tab; keys passing
the `isNavigationKey || isArrowKey` gate run the switch and the skip loop,
and act only if the final tab exists and is not disabled. The returned index
is the tab that gets selected (automatic mode) or focused (manual mode). -/
def tabsHandleKeyDown (activationMode orientation key : String)
    (disabled : List Bool) (i : Nat) : Option Nat :=
  let n := disabled.length
  if activationMode == "manual" && (key == "Enter" || key == " ") then
    match disabled.get? i with
    | some false => some i
    | _ => none
  else if isNavigationKey key || isArrowKey key then
    let j0 := tabsSwitchIndex key (orientation == "horizontal") i n
    let j := skipDisabledLoop disabled i (skipForwardKey key) n j0
    match disabled.get? j with
    | some false => some j
    | _ => none
  else none

/-- `handleKeyDown` of the packaged Tabs variant
(packages/design-system/src/components/Tabs/Tabs.tsx): identical switch and
skip loop, but gated on `isNavigationKey` alone and with no manual branch. -/
def tabsHandleKeyDownPkg (orientation key : String)
    (disabled : List Bool) (i : Nat) : Option Nat :=
  let n := disabled.length
  if isNavigationKey key then
    let j0 := tabsSwitchIndex key (orientation == "horizontal") i n
    let j := skipDisabledLoop disabled i (skipForwardKey key) n j0
    match disabled.get? j with
    | some false => some j
    | _ => none
  else none

/-- `handleKeyDown` of DataTable over `n` rows: gated on `isNavigationKey`
alone, ArrowDown clamps with `Math.min(index + 1, n - 1)`, ArrowUp with
`Math.max(index - 1, 0)`, Home is 0 and End is `n - 1`; any key passing the
gate focuses the computed row (PageUp/PageDown hit no case and re-focus the
current row). -/
def dataTableHandleKeyDown (key : String) (n i : Nat) : Option Nat :=
  if isNavigationKey key then
    some (if key == "ArrowDown" then min (i + 1) (n - 1)
      else if key == "ArrowUp" then i - 1
      else if key == "Home" then 0
      else if key == "End" then n - 1
      else i)
  else none

/-- The focused row index after a DataTable key event: unchanged when the
handler does not act. -/
def dataTableFocusAfter (key : String) (n i : Nat) : Nat :=
  (dataTableHandleKeyDown key n i).getD i

/-- Modelled from the spec: the unified Roving Navigation Controller of
section 4.4, which the source does not define as a single function (Tabs
and DataTable each inline their own handler, and the claim is that they are
its two instances). Key to delta respecting orientation, Home to first,
End to last; wrap steps modulo the item count, clamp stops at the boundary;
disabled items are skipped by repeated stepping in the key direction until
a non-disabled item is found or the start index is revisited; a fully
disabled collection yields no movement. -/
def rovingTarget (horizontal wrap : Bool) (key : String)
    (disabled : List Bool) (i : Nat) : Option Nat :=
  let n := disabled.length
  let fwd := skipForwardKey key
  let init : Option Nat :=
    if key == "Home" then some 0
    else if key == "End" then some (n - 1)
    else if (key == "ArrowRight" && horizontal) || (key == "ArrowDown" && !horizontal) then
      some (if wrap then (i + 1) % n else min (i + 1) (n - 1))
    else if (key == "ArrowLeft" && horizontal) || (key == "ArrowUp" && !horizontal) then
      some (if wrap then (i + n - 1) % n else i - 1)
    else none
  match init with
  | none => none
  | some j0 =>
    let j := skipDisabledLoop disabled i fwd n j0
    match disabled.get? j with
    | some false => some j
    | _ => none

/-! ## Termination of the disabled-skip loop -/

/-- Number of steps the skip loop needs to walk from `j` back to the start
index `i` in its stepping direction, for indices below `n`. -/
def skipDistance : Bool → Nat → Nat → Nat → Nat
  | true, i, j, n => if j ≤ i then i - j else i + n - j
  | false, i, j, n => if i ≤ j then j - i else j + n - i

theorem stepIndex_lt (fwd : Bool) (n j : Nat) (hn : 0 < n) :
    stepIndex fwd n j < n := by
  cases fwd <;> simp only [stepIndex] <;> exact Nat.mod_lt _ hn

theorem stepIndex_forward_eq (n j : Nat) (hj : j < n) :
    stepIndex true n j = if j + 1 = n then 0 else j + 1 := by
  simp only [stepIndex]
  by_cases h : j + 1 = n
  · rw [if_pos h, h, Nat.mod_self]
  · rw [if_neg h, Nat.mod_eq_of_lt (by omega)]

theorem stepIndex_backward_eq (n j : Nat) (hj : j < n) :
    stepIndex false n j = if j = 0 then n - 1 else j - 1 := by
  simp only [stepIndex]
  by_cases h0 : j = 0
  · rw [if_pos h0, h0]
    show (0 + n - 1) % n = n - 1
    rw [Nat.zero_add, Nat.mod_eq_of_lt (show n - 1 < n by omega)]
  · rw [if_neg h0]
    have h1 : j + n - 1 = (j - 1) + n := by omega
    rw [h1, Nat.add_mod_right, Nat.mod_eq_of_lt (by omega)]

theorem skipDistance_step_lt (fwd : Bool) (i j n : Nat)
    (hi : i < n) (hj : j < n) (hne : j ≠ i) :
    skipDistance fwd i (stepIndex fwd n j) n < skipDistance fwd i j n := by
  cases fwd
  · rw [stepIndex_backward_eq n j hj]
    simp only [skipDistance]
    split_ifs <;> omega
  · rw [stepIndex_forward_eq n j hj]
    simp only [skipDistance]
    split_ifs <;> omega

/-- With enough fuel, the skip loop stops at an index where the loop guard
fails: the index is either not disabled or equal to the start index. -/
theorem skip_loop_post (disabled : List Bool) (i : Nat) (fwd : Bool)
    (hi : i < disabled.length) :
    ∀ fuel j, j < disabled.length →
      skipDistance fwd i j disabled.length ≤ fuel →
      (disabled.getD (skipDisabledLoop disabled i fwd fuel j) false = true →
        skipDisabledLoop disabled i fwd fuel j = i) := by
  intro fuel
  induction fuel with
  | zero =>
    intro j hj hdist hdis
    have hji : j = i := by
      cases fwd <;> simp only [skipDistance] at hdist <;>
        split_ifs at hdist <;> omega
    simpa [skipDisabledLoop] using hji
  | succ fuel ih =>
    intro j hj hdist
    unfold skipDisabledLoop
    by_cases hg : (disabled.getD j false && j != i) = true
    · rw [if_pos hg]
      have hne : j ≠ i := by
        have := (Bool.and_eq_true _ _).mp hg
        simpa using this.2
      have hstep := skipDistance_step_lt fwd i j disabled.length hi hj hne
      exact ih (stepIndex fwd disabled.length j)
        (stepIndex_lt fwd disabled.length j (by omega))
        (by omega)
    · rw [if_neg hg]
      intro hdis
      simp only [Bool.and_eq_true, bne_iff_ne, ne_eq, not_and, not_not] at hg
      exact hg hdis

/-- The fuel used by the handlers (the item count) always suffices: the
distance from any in-range start index to the current index is below the
item count. -/
theorem skip_loop_exits (disabled : List Bool) (i : Nat) (fwd : Bool)
    (hi : i < disabled.length) (j : Nat) (hj : j < disabled.length) :
    disabled.getD (skipDisabledLoop disabled i fwd disabled.length j) false = true →
      skipDisabledLoop disabled i fwd disabled.length j = i := by
  refine skip_loop_post disabled i fwd hi disabled.length j hj ?_
  cases fwd <;> simp only [skipDistance] <;> split_ifs <;> omega

/-! ## C2, C4, C9 theorems -/

/-- A concrete collection whose first two items are disabled. -/
def disabled_list_c9 : List Bool := [true, true, false]

/-- C2. The claim states that the Tabs and DataTable key handlers are two
instances of one roving algorithm differing only in orientation and wrap
policy. They are not: DataTable gates its whole handler on `isNavigationKey`,
which is false for arrow keys, so its own `ArrowDown`/`ArrowUp` switch cases
are unreachable and an arrow press moves nothing — even though wrap and clamp
agree away from the boundary (both send index 0 of a two-row collection to
index 1 on ArrowDown, as the spec-modelled `rovingTarget` shows for either
wrap policy, and as the Tabs handler does). This contradicts DataTable's own
documentation comment ("2.1.1 Keyboard: Arrow keys, Home/End navigation") and
leaves dead code, so it is recorded as a code bug at the failing input
key = ArrowDown, two rows, current index 0. -/
theorem c2_datatable_arrow_gate_bug :
    isNavigationKey "ArrowDown" = false ∧
    dataTableHandleKeyDown "ArrowDown" 2 0 = none ∧
    tabsHandleKeyDown "automatic" "vertical" "ArrowDown" [false, false] 0 = some 1 ∧
    rovingTarget false true "ArrowDown" [false, false] 0 = some 1 ∧
    rovingTarget false false "ArrowDown" [false, false] 0 = some 1 ∧
    dataTableHandleKeyDown "Home" 2 1 = some 0 ∧
    dataTableHandleKeyDown "End" 2 0 = some 1 := by
  refine ⟨rfl, rfl, rfl, rfl, rfl, rfl, rfl⟩

/-- C4. Roving navigation over the 5-item collection with index 2 disabled:
on the horizontal automatic tab list, ArrowRight from index 1 lands on 3
(skipping the disabled index 2), End lands on 4, Home lands on 0, and
ArrowRight from the last index wraps to 0; on the clamping table rows the
forward arrow (ArrowDown, and ArrowRight likewise) from the last index
leaves the focused row at index 4. -/
theorem c4_five_item_examples :
    tabsHandleKeyDown "automatic" "horizontal" "ArrowRight" [false, false, true, false, false] 1 = some 3 ∧
    tabsHandleKeyDown "automatic" "horizontal" "End" [false, false, true, false, false] 1 = some 4 ∧
    tabsHandleKeyDown "automatic" "horizontal" "Home" [false, false, true, false, false] 1 = some 0 ∧
    tabsHandleKeyDown "automatic" "horizontal" "ArrowRight" [false, false, true, false, false] 4 = some 0 ∧
    dataTableFocusAfter "ArrowDown" 5 4 = 4 ∧
    dataTableFocusAfter "ArrowRight" 5 4 = 4 := by
  refine ⟨rfl, rfl, rfl, rfl, rfl, rfl⟩

/-- C9. For every collection, in-range current index and key: (i) the
disabled-skip loop, run with the fuel the handlers use, stops at an index
where the loop guard fails — a non-disabled item or the revisited start
index — so the unbounded source loop terminates; (ii) whenever the Tabs
handler moves or selects, the target item is not disabled; (iii) over an
entirely disabled collection both Tabs handler variants produce no movement
and no selection change (and, being total functions, no error). -/
theorem c9_skip_terminates_and_disabled_safe (activationMode orientation key : String)
    (disabled : List Bool) (i : Nat) (hi : i < disabled.length) :
    (∀ j0, j0 < disabled.length →
      disabled.getD (skipDisabledLoop disabled i (skipForwardKey key) disabled.length j0) false = true →
        skipDisabledLoop disabled i (skipForwardKey key) disabled.length j0 = i) ∧
    (∀ j, tabsHandleKeyDown activationMode orientation key disabled i = some j →
      disabled.get? j = some false) ∧
    ((∀ d ∈ disabled, d = true) →
      tabsHandleKeyDown activationMode orientation key disabled i = none ∧
      tabsHandleKeyDownPkg orientation key disabled i = none) := by
  refine ⟨?_, ?_, ?_⟩
  · intro j0 hj0
    exact skip_loop_exits disabled i (skipForwardKey key) hi j0 hj0
  · intro j hj
    unfold tabsHandleKeyDown at hj
    by_cases hman : (activationMode == "manual" && (key == "Enter" || key == " ")) = true
    · rw [if_pos hman] at hj
      rcases hgi : disabled.get? i with _ | d
      · rw [hgi] at hj
        exact absurd hj (by simp)
      · rw [hgi] at hj
        cases d
        · simp only at hj
          cases hj
          exact hgi
        · exact absurd hj (by simp)
    · rw [if_neg hman] at hj
      by_cases hnav : (isNavigationKey key || isArrowKey key) = true
      · rw [if_pos hnav] at hj
        simp only at hj
        rcases hgj : disabled.get?
            (skipDisabledLoop disabled i (skipForwardKey key) disabled.length
              (tabsSwitchIndex key (orientation == "horizontal") i disabled.length))
          with _ | d
        · rw [hgj] at hj
          exact absurd hj (by simp)
        · rw [hgj] at hj
          cases d
          · simp only at hj
            cases hj
            exact hgj
          · exact absurd hj (by simp)
      · rw [if_neg hnav] at hj
        exact absurd hj (by simp)
  · intro hall
    have hnone : ∀ j, (match disabled.get? j with
        | some false => some j
        | _ => (none : Option Nat)) = none := by
      intro j
      rcases hgj : disabled.get? j with _ | d
      · simp
      · have : d = true := hall d (List.get?_mem hgj)
        simp [this]
    constructor
    · unfold tabsHandleKeyDown
      split
      · exact hnone i
      · split
        · exact hnone _
        · rfl
    · unfold tabsHandleKeyDownPkg
      split
      · exact hnone _
      · rfl

/-- C9, witness: on the concrete collection with items 0 and 1 disabled and
item 2 enabled, ArrowRight from index 0 selects the non-disabled index 2;
and on a fully disabled two-item collection both handler variants act as
no-ops. -/
theorem c9_skip_terminates_and_disabled_safe_witness :
    disabled_list_c9.get? 2 = some false ∧
    tabsHandleKeyDown "automatic" "horizontal" "ArrowRight" [true, true] 0 = none ∧
    tabsHandleKeyDownPkg "horizontal" "End" [true, true] 0 = none := by
  refine ⟨?_, ?_, ?_⟩
  · exact (c9_skip_terminates_and_disabled_safe "automatic" "horizontal" "ArrowRight"
      disabled_list_c9 0 (by decide)).2.1 2 rfl
  · exact ((c9_skip_terminates_and_disabled_safe "automatic" "horizontal" "ArrowRight"
      [true, true] 0 (by decide)).2.2 (by decide)).1
  · exact ((c9_skip_terminates_and_disabled_safe "automatic" "horizontal" "End"
      [true, true] 0 (by decide)).2.2 (by decide)).2

/-! ## Focus trap (hooks/useFocusTrap.ts)

The trap lifecycle is the effect of `useFocusTrap`: on activation it saves
`document.activeElement` into the `previousActiveElement` ref, focuses the
first focusable element of the container (or the container itself), and
installs the keydown listener; the effect cleanup removes the listener and
focuses the saved element. -/

structure TrapState where
  prevActive : Option FElem
  active : Option FElem
  listening : Bool
deriving DecidableEq, Repr

/-- Activation of the trap on a container with descendants `container` and
container element `containerSelf`. The previously focused element is saved
only when `document.activeElement` is an HTMLElement (`some`). -/
def activateTrap (container : List FElem) (containerSelf : FElem)
    (s : TrapState) : TrapState :=
  let prev := match s.active with
    | some a => some a
    | none => s.prevActive
  let target := match getFirstFocusable container with
    | some f => f
    | none => containerSelf
  ⟨prev, some target, true⟩

/-- The effect cleanup of `useFocusTrap`: the listener is removed and the
element saved in `previousActiveElement` is focused when present. -/
def deactivateTrap (s : TrapState) : TrapState :=
  ⟨s.prevActive,
    match s.prevActive with
    | some p => some p
    | none => s.active,
    false⟩

/-- Outcome of the trap keydown listener on one key press: whether
`preventDefault` was called and which element, if any, was focused. -/
structure TrapKeyResult where
  defaultPrevented : Bool
  focusTarget : Option FElem
deriving DecidableEq, Repr

/-- The `handleKeyDown` listener of `useFocusTrap`: non-Tab keys return
early; with no focusable elements the default is suppressed and nothing is
focused; plain Tab on the last focusable wraps to the first, Shift+Tab on
the first wraps to the last, and every other Tab press falls through. -/
def trapHandleKey (key : String) (shift : Bool) (container : List FElem)
    (active : Option FElem) : TrapKeyResult :=
  if key != "Tab" then ⟨false, none⟩
  else
    match getFirstFocusable container, getLastFocusable container with
    | some f, some l =>
      if shift then
        if active = some f then ⟨true, some l⟩ else ⟨false, none⟩
      else
        if active = some l then ⟨true, some f⟩ else ⟨false, none⟩
    | _, _ => ⟨true, none⟩

/-! ## C3 and C7 theorems -/

/-- C3, counterexample. The claim states that deactivating the trap only
releases key interception and never itself changes which element holds
focus. The cleanup of `useFocusTrap`, however, focuses the saved
`previousActiveElement`: activating a trap around a modal button while the
trigger button holds focus moves focus to the modal button, and
deactivation moves it back to the trigger — a focus change performed by the
trap itself. -/
theorem c3_trap_deactivation_moves_focus :
    (activateTrap [modalButton] modalContainer ⟨none, some triggerButton, false⟩).active
        = some modalButton ∧
    (deactivateTrap (activateTrap [modalButton] modalContainer
        ⟨none, some triggerButton, false⟩)).active = some triggerButton ∧
    (deactivateTrap (activateTrap [modalButton] modalContainer
        ⟨none, some triggerButton, false⟩)).active
      ≠ (activateTrap [modalButton] modalContainer
        ⟨none, some triggerButton, false⟩).active := by
  refine ⟨rfl, rfl, ?_⟩
  simp [activateTrap, deactivateTrap, getFirstFocusable, getFocusableElements,
    triggerButton, modalButton, matchesFocusableSelector, isFormControlTag]

/-- C3, amended. Deactivating the trap releases key interception and, in
addition, the trap itself restores focus: the cleanup focuses the element
saved at activation whenever one was saved (leaving focus unchanged only
when none was), rather than delegating restoration to the focus-return
controller. -/
theorem c3_trap_deactivation_amended (s : TrapState) :
    (deactivateTrap s).listening = false ∧
    (deactivateTrap s).active = (match s.prevActive with
      | some p => some p
      | none => s.active) ∧
    (deactivateTrap s).prevActive = s.prevActive :=
  ⟨rfl, rfl, rfl⟩

/-- C7, counterexample. The claim states that every Tab press other than
plain Tab on the last focusable and Shift+Tab on the first passes through
unmodified. On a container with zero focusable elements the listener instead
suppresses the default (and moves nothing): the press neither matches the
two wrap cases nor passes through. -/
theorem c7_trap_tab_claim_false :
    getFocusableElements [] = [] ∧
    trapHandleKey "Tab" false [] none = ⟨true, none⟩ ∧
    (⟨true, none⟩ : TrapKeyResult) ≠ ⟨false, none⟩ :=
  ⟨rfl, rfl, by simp⟩

/-- C7, amended. While the trap is active: plain Tab with focus on the last
focusable element moves focus to the first and suppresses the default;
Shift+Tab with focus on the first moves to the last and suppresses the
default; every other key or Tab position passes through unmodified — except
that on a container with no focusable elements any Tab press is suppressed
without moving focus. -/
theorem c7_trap_tab_amended (key : String) (shift : Bool)
    (container : List FElem) (active : Option FElem) :
    (key ≠ "Tab" → trapHandleKey key shift container active = ⟨false, none⟩) ∧
    (∀ f l, getFirstFocusable container = some f → getLastFocusable container = some l →
      (trapHandleKey "Tab" false container active
          = if active = some l then ⟨true, some f⟩ else ⟨false, none⟩) ∧
      (trapHandleKey "Tab" true container active
          = if active = some f then ⟨true, some l⟩ else ⟨false, none⟩)) ∧
    (getFocusableElements container = [] →
      trapHandleKey "Tab" shift container active = ⟨true, none⟩) := by
  refine ⟨?_, ?_, ?_⟩
  · intro hk
    unfold trapHandleKey
    rw [if_pos (by simpa using hk)]
  · intro f l hf hl
    constructor
    · unfold trapHandleKey
      rw [if_neg (by simp), hf, hl]
      rfl
    · unfold trapHandleKey
      rw [if_neg (by simp), hf, hl]
      rfl
  · intro hempty
    unfold trapHandleKey
    rw [if_neg (by simp)]
    have hf : getFirstFocusable container = none := by
      simp [getFirstFocusable, hempty]
    rw [hf]

/-- C7 amended, witness: with a single focusable button holding focus,
plain Tab wraps to it with the default suppressed; a non-Tab key passes
through; Tab on an empty container is suppressed. -/
theorem c7_trap_tab_amended_witness :
    trapHandleKey "Tab" false [okButton] (some okButton) = ⟨true, some okButton⟩ ∧
    trapHandleKey "Escape" false [okButton] none = ⟨false, none⟩ ∧
    trapHandleKey "Tab" true [] none = ⟨true, none⟩ := by
  refine ⟨?_, ?_, ?_⟩
  · have h := ((c7_trap_tab_amended "Tab" false [okButton] (some okButton)).2.1
      okButton okButton rfl rfl).1
    simpa using h
  · exact (c7_trap_tab_amended "Escape" false [okButton] none).1 (by simp)
  · exact (c7_trap_tab_amended "Tab" true [] none).2.2 rfl

/-! ## Focus return: module-level saveFocus/restoreFocus (utils/focus.ts)

Elements are identified by their id strings here; `activeElement = none`
models `document.activeElement` not being an HTMLElement. -/

structure FocusModuleState where
  savedFocusElement : Option String
  activeElement : Option String
deriving DecidableEq, Repr

/-- `saveFocus`: stores `document.activeElement` into the module-level
`savedFocusElement` variable whenever it is an HTMLElement. The assignment
is unconditional — any previously held snapshot is overwritten. -/
def saveFocus (s : FocusModuleState) : FocusModuleState :=
  match s.activeElement with
  | some a => { s with savedFocusElement := some a }
  | none => s

/-- `restoreFocus`: focuses the saved element, then sets the module-level
variable back to `null`; a call with no snapshot does nothing. -/
def restoreFocus (s : FocusModuleState) : FocusModuleState :=
  match s.savedFocusElement with
  | some e => ⟨none, some e⟩
  | none => s

/-! ## Focus return: the useFocusReturn hook (hooks/useFocusReturn.ts)

The hook is an effect with dependency array `[returnOnUnmount,
returnElement]`. A render step runs the effect exactly when a dependency
changed; the previous cleanup (when one is armed) runs first. The effect
body returns early when the flag is false (arming no cleanup); otherwise it
saves `document.activeElement` into `savedElementRef` and arms a cleanup
that focuses `returnElement || savedElementRef.current`. The cleanup never
resets `savedElementRef`. -/

structure FocusReturnState where
  saved : Option String
  prevDeps : Option (Bool × Option String)
  cleanup : Option (Option String)
  active : Option String
deriving DecidableEq, Repr

/-- `returnElement || savedElementRef.current`: the element the cleanup
tries to focus. -/
def focusReturnCleanupTarget (reOld saved : Option String) : Option String :=
  match reOld with
  | some t => some t
  | none => saved

/-- Run the armed cleanup, if any: focus the captured `returnElement` when
configured, otherwise the current value of the saved ref; fail silently when
neither exists. -/
def runFocusReturnCleanup (s : FocusReturnState) : FocusReturnState :=
  match s.cleanup with
  | some reOld =>
    match focusReturnCleanupTarget reOld s.saved with
    | some t => { s with active := some t }
    | none => s
  | none => s

theorem runFocusReturnCleanup_saved (s : FocusReturnState) :
    (runFocusReturnCleanup s).saved = s.saved := by
  obtain ⟨sv, pd, cl, ac⟩ := s
  cases cl with
  | none => rfl
  | some reOld =>
    cases reOld with
    | some t => rfl
    | none => cases sv <;> rfl

theorem runFocusReturnCleanup_active (s : FocusReturnState) (reOld : Option String)
    (hc : s.cleanup = some reOld) :
    (runFocusReturnCleanup s).active = (match focusReturnCleanupTarget reOld s.saved with
      | some t => some t
      | none => s.active) := by
  obtain ⟨sv, pd, cl, ac⟩ := s
  replace hc : cl = some reOld := hc
  subst hc
  cases reOld with
  | some t => rfl
  | none => cases sv <;> rfl

/-- One render of `useFocusReturn` with props `(returnOnUnmount,
returnElement)` under useEffect dependency semantics. -/
def focusReturnRender (returnOnUnmount : Bool) (returnElement : Option String)
    (s : FocusReturnState) : FocusReturnState :=
  if s.prevDeps = some (returnOnUnmount, returnElement) then s
  else
    let s1 := runFocusReturnCleanup s
    if returnOnUnmount then
      { saved := match s1.active with
          | some a => some a
          | none => s1.saved,
        prevDeps := some (returnOnUnmount, returnElement),
        cleanup := some returnElement,
        active := s1.active }
    else
      { s1 with prevDeps := some (returnOnUnmount, returnElement), cleanup := none }

/-! ## C5 and C8 theorems -/

/-- C5, counterexample. The claim states that a repeated activation without
an intervening deactivation never overwrites an already-held snapshot. The
capture is an unconditional assignment: saving while the trigger is focused,
then saving again after focus moved into the dialog, leaves the snapshot at
the dialog element, not the first capture. -/
theorem c5_snapshot_overwritten :
    (saveFocus ⟨none, some "trigger"⟩).savedFocusElement = some "trigger" ∧
    (saveFocus ⟨(saveFocus ⟨none, some "trigger"⟩).savedFocusElement,
        some "dialog-input"⟩).savedFocusElement = some "dialog-input" ∧
    (some "dialog-input" : Option String) ≠ some "trigger" :=
  ⟨rfl, rfl, by simp⟩

/-- C5, amended. Every activation capture overwrites the snapshot with the
element focused at that moment (last capture wins): after any sequence of
captures the snapshot is the element focused at the most recent one, not the
first. A capture while nothing focusable holds focus leaves the state
unchanged. The `useFocusReturn` effect body behaves the same way
(`focusReturnRender` with the flag raised stores the current active
element regardless of any held snapshot). -/
theorem c5_snapshot_amended (s : FocusModuleState) (a : String)
    (h : s.activeElement = some a) (fr : FocusReturnState) (b : String)
    (re : Option String) (hb : (runFocusReturnCleanup fr).active = some b)
    (hdeps : fr.prevDeps ≠ some (true, re)) :
    (saveFocus s).savedFocusElement = some a ∧
    (saveFocus s).activeElement = s.activeElement ∧
    (focusReturnRender true re fr).saved = some b := by
  refine ⟨?_, ?_, ?_⟩
  · unfold saveFocus
    rw [h]
  · unfold saveFocus
    rw [h]
  · unfold focusReturnRender
    rw [if_neg hdeps, if_pos rfl, hb]

/-- C5 amended, witness: capturing while "second" holds focus overwrites a
snapshot of "first" in both the module-level store and the hook ref. -/
theorem c5_snapshot_amended_witness :
    (saveFocus ⟨some "first", some "second"⟩).savedFocusElement = some "second" ∧
    (focusReturnRender true none ⟨some "first", none, none, some "second"⟩).saved
      = some "second" := by
  have h := c5_snapshot_amended ⟨some "first", some "second"⟩ "second" rfl
    ⟨some "first", none, none, some "second"⟩ "second" none rfl (by simp)
  exact ⟨h.1, h.2.2⟩

/-- C8, counterexample. The claim states that after a focus-return
deactivation the snapshot is cleared. The `useFocusReturn` cleanup focuses
the snapshot but never resets `savedElementRef`: after activating while the
trigger is focused, moving focus into the dialog, and deactivating, focus is
back on the trigger yet the ref still holds the trigger snapshot instead of
being cleared. -/
theorem c8_snapshot_not_cleared :
    (focusReturnRender true none ⟨none, none, none, some "trigger"⟩).saved
        = some "trigger" ∧
    (focusReturnRender false none
        { focusReturnRender true none ⟨none, none, none, some "trigger"⟩ with
          active := some "dialog-btn" }).active = some "trigger" ∧
    (focusReturnRender false none
        { focusReturnRender true none ⟨none, none, none, some "trigger"⟩ with
          active := some "dialog-btn" }).saved = some "trigger" ∧
    (some "trigger" : Option String) ≠ none :=
  ⟨rfl, rfl, rfl, by simp⟩

/-- C8, amended. On deactivation (flag true to false) the configured explicit
return target, when present, receives focus, otherwise the snapshot element
does; the snapshot is retained rather than cleared (it is only overwritten by
the next activation); and once no cleanup is armed — in particular right
after a deactivation — any further render with the flag low changes focus in
no way, so a second consecutive deactivation is still a no-op. -/
theorem c8_deactivation_amended (s : FocusReturnState) (re : Option String) :
    ((focusReturnRender false re s).saved = s.saved) ∧
    (∀ t, s.cleanup = some (some t) → s.prevDeps ≠ some (false, re) →
      (focusReturnRender false re s).active = some t) ∧
    (s.cleanup = some none → s.prevDeps ≠ some (false, re) →
      (focusReturnRender false re s).active = (match s.saved with
        | some a => some a
        | none => s.active)) ∧
    (s.cleanup = none → (focusReturnRender false re s).active = s.active) ∧
    (s.cleanup = none → (focusReturnRender false re s).cleanup = none) := by
  refine ⟨?_, ?_, ?_, ?_, ?_⟩
  · unfold focusReturnRender
    by_cases hdeps : s.prevDeps = some (false, re)
    · rw [if_pos hdeps]
    · rw [if_neg hdeps, if_neg (by simp)]
      exact runFocusReturnCleanup_saved s
  · intro t hc hdeps
    unfold focusReturnRender
    rw [if_neg hdeps, if_neg (by simp)]
    show (runFocusReturnCleanup s).active = some t
    rw [runFocusReturnCleanup_active s (some t) hc]
    rfl
  · intro hc hdeps
    unfold focusReturnRender
    rw [if_neg hdeps, if_neg (by simp)]
    show (runFocusReturnCleanup s).active = _
    rw [runFocusReturnCleanup_active s none hc]
    cases s.saved <;> rfl
  · intro hc
    unfold focusReturnRender
    by_cases hdeps : s.prevDeps = some (false, re)
    · rw [if_pos hdeps]
    · rw [if_neg hdeps, if_neg (by simp)]
      show (runFocusReturnCleanup s).active = s.active
      unfold runFocusReturnCleanup
      rw [hc]
  · intro hc
    unfold focusReturnRender
    by_cases hdeps : s.prevDeps = some (false, re)
    · rw [if_pos hdeps]
      exact hc
    · rw [if_neg hdeps, if_neg (by simp)]

/-- C8 amended, witness: deactivating with an explicit return target focuses
that target while retaining the snapshot, and a subsequent render with the
flag still low leaves focus untouched. -/
theorem c8_deactivation_amended_witness :
    (focusReturnRender false (some "explicit-target")
        ⟨some "orig", some (true, some "explicit-target"), some (some "explicit-target"),
          some "inside"⟩).active = some "explicit-target" ∧
    (focusReturnRender false (some "explicit-target")
        ⟨some "orig", some (true, some "explicit-target"), some (some "explicit-target"),
          some "inside"⟩).saved = some "orig" ∧
    (focusReturnRender false none
        ⟨some "orig", some (false, some "explicit-target"), none, some "explicit-target"⟩).active
      = some "explicit-target" := by
  refine ⟨?_, ?_, ?_⟩
  · exact (c8_deactivation_amended
      ⟨some "orig", some (true, some "explicit-target"), some (some "explicit-target"),
        some "inside"⟩ (some "explicit-target")).2.1 "explicit-target" rfl (by simp)
  · exact (c8_deactivation_amended
      ⟨some "orig", some (true, some "explicit-target"), some (some "explicit-target"),
        some "inside"⟩ (some "explicit-target")).1
  · exact (c8_deactivation_amended
      ⟨some "orig", some (false, some "explicit-target"), none, some "explicit-target"⟩
      none).2.2.2.1 rfl

/-! ## Live announcer (hooks/useAriaLive.ts)

The announcement surfaces are the `div` nodes appended to `document.body`,
modelled as a list of live regions; `getElementById` is a first-match lookup
on the id. The hook is an effect with dependency array
`[message, priority, clearOnUnmount]`; its body looks the surface up by id
`aria-live-` ++ priority, creates it if absent, and assigns `textContent`
only when the message is truthy (present and nonempty). The cleanup, run
before a re-run or on unmount, clears the referenced surface when the
captured `clearOnUnmount` was set. Each `textContent` assignment is recorded
as an (old, new) write event, so that DOM mutations can be counted. -/

structure LiveRegion where
  domId : String
  role : String
  ariaLive : String
  textContent : String
deriving DecidableEq, Repr

def regionId (priority : String) : String := "aria-live-" ++ priority

def findRegion (id : String) (dom : List LiveRegion) : Option LiveRegion :=
  dom.find? (fun r => r.domId == id)

/-- Content of the surface keyed by a politeness level, when it exists. -/
def regionContent (priority : String) (dom : List LiveRegion) : Option String :=
  (findRegion (regionId priority) dom).map (fun r => r.textContent)

/-- Number of surfaces carrying a given id. -/
def regionCount (id : String) (dom : List LiveRegion) : Nat :=
  (dom.filter (fun r => r.domId == id)).length

/-- Create the surface for a politeness level when `getElementById` finds
none: a `div` with role `status`, `aria-live` set to the priority and empty
content, appended to the body. -/
def ensureRegion (priority : String) (dom : List LiveRegion) : List LiveRegion :=
  match findRegion (regionId priority) dom with
  | some _ => dom
  | none => dom ++ [⟨regionId priority, "status", priority, ""⟩]

/-- Assign `textContent := t` on the first region with the given id,
recording the (old, new) write event; no write when no region matches. -/
def writeRegion (id t : String) : List LiveRegion → List LiveRegion × List (String × String)
  | [] => ([], [])
  | r :: rest =>
    if r.domId == id then ({ r with textContent := t } :: rest, [(r.textContent, t)])
    else
      let out := writeRegion id t rest
      (r :: out.1, out.2)

structure AriaLiveState where
  prevDeps : Option (Option String × String × Bool)
  refId : Option String
deriving DecidableEq, Repr

/-- The effect cleanup: when a previous effect ran (so a cleanup is armed)
and its captured `clearOnUnmount` was true, clear the referenced surface. -/
def ariaLiveCleanup (s : AriaLiveState) (dom : List LiveRegion) :
    List LiveRegion × List (String × String) :=
  match s.prevDeps, s.refId with
  | some (_, _, cOld), some rid => if cOld then writeRegion rid "" dom else (dom, [])
  | _, _ => (dom, [])

/-- The effect body: ensure the surface exists, then write the message when
it is truthy (present and nonempty — `if (message)` in the source). -/
def ariaLiveEffect : Option String → String → List LiveRegion →
    List LiveRegion × List (String × String)
  | some t, priority, dom =>
    if t == "" then (ensureRegion priority dom, [])
    else writeRegion (regionId priority) t (ensureRegion priority dom)
  | none, priority, dom => (ensureRegion priority dom, [])

theorem ariaLiveEffect_some (t p : String) (dom : List LiveRegion) :
    ariaLiveEffect (some t) p dom =
      (if t == "" then (ensureRegion p dom, [])
       else writeRegion (regionId p) t (ensureRegion p dom)) := rfl

theorem ariaLiveEffect_none (p : String) (dom : List LiveRegion) :
    ariaLiveEffect none p dom = (ensureRegion p dom, []) := rfl

/-- One render of `useAriaLive` under useEffect dependency semantics:
when no dependency changed, neither cleanup nor effect runs and the DOM is
untouched; otherwise the previous cleanup runs, then the effect. Returns the
new hook state, the new DOM and the list of write events. -/
def ariaLiveRender (message : Option String) (priority : String)
    (clearOnUnmount : Bool) (s : AriaLiveState) (dom : List LiveRegion) :
    AriaLiveState × List LiveRegion × List (String × String) :=
  if s.prevDeps = some (message, priority, clearOnUnmount) then (s, dom, [])
  else
    let cl := ariaLiveCleanup s dom
    let ef := ariaLiveEffect message priority cl.1
    (⟨some (message, priority, clearOnUnmount), some (regionId priority)⟩,
      ef.1, cl.2 ++ ef.2)

/-! ### DOM lemmas for the announcer -/

theorem writeRegion_find (id t : String) (dom : List LiveRegion) :
    findRegion id (writeRegion id t dom).1
      = (findRegion id dom).map (fun r => { r with textContent := t }) := by
  induction dom with
  | nil => rfl
  | cons r rest ih =>
    cases h : r.domId == id with
    | true => simp [writeRegion, findRegion, List.find?, h]
    | false => simpa [writeRegion, findRegion, List.find?, h] using ih

theorem writeRegion_count (id2 id t : String) (dom : List LiveRegion) :
    regionCount id2 (writeRegion id t dom).1 = regionCount id2 dom := by
  induction dom with
  | nil => rfl
  | cons r rest ih =>
    have ih2 := ih
    simp only [regionCount] at ih2 ⊢
    cases h : r.domId == id with
    | true => cases h2 : r.domId == id2 <;> simp [writeRegion, List.filter_cons, h, h2]
    | false => cases h2 : r.domId == id2 <;> simp [writeRegion, List.filter_cons, h, h2, ih2]

theorem findRegion_none_count_zero (id : String) (dom : List LiveRegion)
    (h : findRegion id dom = none) : regionCount id dom = 0 := by
  induction dom with
  | nil => rfl
  | cons r rest ih =>
    simp only [findRegion, List.find?] at h
    by_cases hr : (r.domId == id) = true
    · rw [hr] at h
      exact absurd h (by simp)
    · rw [Bool.of_not_eq_true hr] at h
      simp only [regionCount, List.filter, Bool.of_not_eq_true hr]
      exact ih h

theorem findRegion_append_none (id : String) (dom l2 : List LiveRegion)
    (h : findRegion id dom = none) :
    findRegion id (dom ++ l2) = findRegion id l2 := by
  induction dom with
  | nil => rfl
  | cons r rest ih =>
    simp only [findRegion, List.find?] at h ⊢
    by_cases hr : (r.domId == id) = true
    · rw [hr] at h
      exact absurd h (by simp)
    · rw [Bool.of_not_eq_true hr] at h ⊢
      exact ih h

theorem ensureRegion_find_isSome (priority : String) (dom : List LiveRegion) :
    (findRegion (regionId priority) (ensureRegion priority dom)).isSome = true := by
  unfold ensureRegion
  cases h : findRegion (regionId priority) dom with
  | some r => simp [h]
  | none =>
    rw [findRegion_append_none (regionId priority) dom _ h]
    simp [findRegion, List.find?]

theorem ensureRegion_count_le (priority : String) (dom : List LiveRegion)
    (h : regionCount (regionId priority) dom ≤ 1) :
    regionCount (regionId priority) (ensureRegion priority dom) ≤ 1 := by
  unfold ensureRegion
  cases hf : findRegion (regionId priority) dom with
  | some r => exact h
  | none =>
    have h0 := findRegion_none_count_zero (regionId priority) dom hf
    simp [regionCount, List.filter_append, h0]
    simpa [regionCount] using h0

theorem ensureRegion_count_one (priority : String) (dom : List LiveRegion)
    (h : regionCount (regionId priority) dom = 0) :
    regionCount (regionId priority) (ensureRegion priority dom) = 1 := by
  unfold ensureRegion
  cases hf : findRegion (regionId priority) dom with
  | some r =>
    exfalso
    have : r ∈ dom.filter (fun x => x.domId == regionId priority) := by
      have hm := List.find?_some hf
      have hmem := List.mem_of_find?_eq_some hf
      exact List.mem_filter.mpr ⟨hmem, hm⟩
    have : 0 < regionCount (regionId priority) dom :=
      List.length_pos.mpr (fun he => by simp [regionCount, he] at this)
    omega
  | none =>
    have h0 : regionCount (regionId priority) dom = 0 :=
      findRegion_none_count_zero (regionId priority) dom hf
    simp [regionCount, List.filter_append] at *
    simpa [regionCount] using h0

/-! ## C6 and C10 theorems -/

/-- First announcement of "Saved" on the polite channel from a fresh hook
and an empty body. -/
def politeSavedOnce : AriaLiveState × List LiveRegion × List (String × String) :=
  ariaLiveRender (some "Saved") "polite" true ⟨none, none⟩ []

/-- C6, counterexample. The claim states that a second, immediately
consecutive `announce("Saved", "polite")` causes the polite surface content
to change at least once between the two calls. The effect dependency array
`[message, priority, clearOnUnmount]` is unchanged on the second call, so
neither cleanup nor effect runs: the second call performs zero `textContent`
assignments and leaves the DOM byte-for-byte identical — the duplicate
announcement is swallowed, exactly the edge case the spec itself warns about
elsewhere. -/
theorem c6_duplicate_announce_swallowed :
    politeSavedOnce.2.2 = [("", "Saved")] ∧
    regionContent "polite" politeSavedOnce.2.1 = some "Saved" ∧
    ariaLiveRender (some "Saved") "polite" true politeSavedOnce.1 politeSavedOnce.2.1
      = (politeSavedOnce.1, politeSavedOnce.2.1, []) := by
  refine ⟨rfl, rfl, rfl⟩

/-- C6, amended. A render whose message, priority and clear flag all equal
the previous ones runs no effect: it produces no write event and leaves
both the hook state and the DOM unchanged, so a repeated identical
announcement never mutates the surface — callers needing re-announcement
must vary the text or clear first. -/
theorem c6_duplicate_announce_amended (m : Option String) (p : String) (c : Bool)
    (s : AriaLiveState) (dom : List LiveRegion)
    (h : s.prevDeps = some (m, p, c)) :
    ariaLiveRender m p c s dom = (s, dom, []) := by
  unfold ariaLiveRender
  rw [if_pos h]

/-- C6 amended, witness: the concrete repeated "Saved" render is the
identity on state and DOM and emits no write. -/
theorem c6_duplicate_announce_amended_witness :
    ariaLiveRender (some "Saved") "polite" true
        ⟨some (some "Saved", "polite", true), some "aria-live-polite"⟩
        [⟨"aria-live-polite", "status", "polite", "Saved"⟩]
      = (⟨some (some "Saved", "polite", true), some "aria-live-polite"⟩,
         [⟨"aria-live-polite", "status", "polite", "Saved"⟩], []) :=
  c6_duplicate_announce_amended (some "Saved") "polite" true
    ⟨some (some "Saved", "polite", true), some "aria-live-polite"⟩
    [⟨"aria-live-polite", "status", "polite", "Saved"⟩] rfl

/-- First announcement of "Saved" on the polite channel with the clear flag
off, from a fresh hook and an empty body. -/
def politeSavedNoClear : AriaLiveState × List LiveRegion × List (String × String) :=
  ariaLiveRender (some "Saved") "polite" false ⟨none, none⟩ []

/-- C10, counterexample. The claim states that every call to `announce`
writes the given text into the surface, replacing its previous content on
each call. The effect body guards the assignment with `if (message)`, so a
call with the empty string (with the clear flag off, so the cleanup does
not clear either) leaves the previous content in place: after
announce("Saved") and announce(""), the polite surface still reads "Saved"
instead of the empty text, and the second call wrote nothing. -/
theorem c10_empty_text_not_written :
    regionContent "polite" politeSavedNoClear.2.1 = some "Saved" ∧
    regionContent "polite"
        (ariaLiveRender (some "") "polite" false politeSavedNoClear.1
          politeSavedNoClear.2.1).2.1 = some "Saved" ∧
    (ariaLiveRender (some "") "polite" false politeSavedNoClear.1
        politeSavedNoClear.2.1).2.2 = [] ∧
    (some "Saved" : Option String) ≠ some "" := by
  refine ⟨rfl, rfl, rfl, by simp⟩

/-- C10, amended. A render with a changed dependency ensures the surface for
its politeness level exists (creating it lazily on first use), keeps at most
one surface per politeness (exactly one once used), and, when the text is
present and nonempty, replaces the surface content with that text; a call
with empty or absent text leaves the content to the cleanup alone. Together
with the unchanged-dependency case this is the whole announcer behavior. -/
theorem c10_announce_amended (m : Option String) (p : String) (c : Bool)
    (s : AriaLiveState) (dom : List LiveRegion)
    (hdeps : s.prevDeps ≠ some (m, p, c)) :
    (findRegion (regionId p) (ariaLiveRender m p c s dom).2.1).isSome = true ∧
    (∀ t, m = some t → t ≠ "" →
      regionContent p (ariaLiveRender m p c s dom).2.1 = some t) ∧
    (regionCount (regionId p) dom ≤ 1 →
      regionCount (regionId p) (ariaLiveRender m p c s dom).2.1 ≤ 1) ∧
    (regionCount (regionId p) dom = 0 →
      regionCount (regionId p) (ariaLiveRender m p c s dom).2.1 = 1) := by
  have hrender : (ariaLiveRender m p c s dom).2.1
      = (ariaLiveEffect m p (ariaLiveCleanup s dom).1).1 := by
    unfold ariaLiveRender
    rw [if_neg hdeps]
  have hclean : ∀ id2, regionCount id2 (ariaLiveCleanup s dom).1 = regionCount id2 dom := by
    intro id2
    unfold ariaLiveCleanup
    rcases s.prevDeps with _ | ⟨_, _, cOld⟩ <;> rcases s.refId with _ | rid
    · rfl
    · rfl
    · rfl
    · cases cOld
      · rfl
      · exact writeRegion_count id2 rid "" dom
  refine ⟨?_, ?_, ?_, ?_⟩
  · rw [hrender]
    rcases m with _ | t
    · rw [ariaLiveEffect_none]
      exact ensureRegion_find_isSome p _
    · rw [ariaLiveEffect_some]
      by_cases ht : (t == "") = true
      · rw [if_pos ht]
        exact ensureRegion_find_isSome p _
      · rw [if_neg ht]
        rw [writeRegion_find]
        have hs := ensureRegion_find_isSome p (ariaLiveCleanup s dom).1
        rcases hf : findRegion (regionId p) (ensureRegion p (ariaLiveCleanup s dom).1)
          with _ | r
        · rw [hf] at hs
          simp at hs
        · rfl
  · intro t hm ht
    subst hm
    rw [hrender, ariaLiveEffect_some]
    rw [if_neg (by simpa using ht)]
    unfold regionContent
    rw [writeRegion_find]
    have hs := ensureRegion_find_isSome p (ariaLiveCleanup s dom).1
    rcases hf : findRegion (regionId p) (ensureRegion p (ariaLiveCleanup s dom).1)
      with _ | r
    · rw [hf] at hs
      simp at hs
    · rfl
  · intro hle
    rw [hrender]
    have hle2 : regionCount (regionId p) (ariaLiveCleanup s dom).1 ≤ 1 := by
      rw [hclean]
      exact hle
    rcases m with _ | t
    · rw [ariaLiveEffect_none]
      exact ensureRegion_count_le p _ hle2
    · rw [ariaLiveEffect_some]
      by_cases ht : (t == "") = true
      · rw [if_pos ht]
        exact ensureRegion_count_le p _ hle2
      · rw [if_neg ht, writeRegion_count]
        exact ensureRegion_count_le p _ hle2
  · intro hzero
    rw [hrender]
    have hzero2 : regionCount (regionId p) (ariaLiveCleanup s dom).1 = 0 := by
      rw [hclean]
      exact hzero
    rcases m with _ | t
    · rw [ariaLiveEffect_none]
      exact ensureRegion_count_one p _ hzero2
    · rw [ariaLiveEffect_some]
      by_cases ht : (t == "") = true
      · rw [if_pos ht]
        exact ensureRegion_count_one p _ hzero2
      · rw [if_neg ht, writeRegion_count]
        exact ensureRegion_count_one p _ hzero2

/-- C10 amended, witness: a fresh announce of "Saved" on the polite channel
creates exactly one polite surface and fills it with "Saved". -/
theorem c10_announce_amended_witness :
    regionContent "polite"
        (ariaLiveRender (some "Saved") "polite" true ⟨none, none⟩ []).2.1 = some "Saved" ∧
    regionCount (regionId "polite")
        (ariaLiveRender (some "Saved") "polite" true ⟨none, none⟩ []).2.1 = 1 := by
  have h := c10_announce_amended (some "Saved") "polite" true ⟨none, none⟩ [] (by simp)
  exact ⟨h.2.1 "Saved" rfl (by simp), h.2.2.2 rfl⟩

end A11y
